import Mathlib

/-!
Upload widget of `web/app.js`.

A shallow embedding of the client-side controller in `src/web/app.js`:
the page (the module variable `selectedFile` together with the DOM
properties the script reads and writes) is an explicit record, every
listener is a function on that record, and the two observable effects
(`alert`, `fetch`) are recorded in logs carried by the record.

The `async` click listener of `process-btn` suspends once, at
`await fetch(...)`; it is split at that point into `processBtnClick`
(everything before the request is issued) and `processBtnSettle`
(everything after the request has settled).
-/

namespace Limpiador

/-! ## Data model -/

/-- File handle as the script sees it: the `name` it reads, and a number
standing for the binary content it only passes along. -/
structure File where
  name : String
  content : Nat
deriving DecidableEq, Repr

/-- One call of `fetch`: the URL, the HTTP method and the single form
field (`formData.append('file', selectedFile)`). -/
structure UploadRequest where
  url : String
  method : String
  field : String
  file : File
deriving DecidableEq, Repr

/-- JSON body of the answer of `/upload`, as read by the listener:
`result.success`, `result.message`, `result.download_url` (absent on
failure). -/
structure UploadResult where
  success : Bool
  message : String
  download_url : Option String
deriving DecidableEq, Repr

/-- How the `try` block of the click listener can go: `fetch` rejects,
`response.json()` rejects, or a result object is obtained. -/
inductive FetchOutcome where
  | networkError : FetchOutcome
  | parseError : FetchOutcome
  | response : UploadResult → FetchOutcome
deriving DecidableEq, Repr

/-- The page: `selectedFile` and the DOM properties touched by the script,
plus the log of alerts shown and of requests issued. -/
structure Page where
  /-- Module variable `selectedFile` (`none` is `null`). -/
  selectedFile : Option File
  /-- Property `files` of `#file-input`; its `value` is derived from it. -/
  fileInputFiles : List File
  /-- Property `classList` of `#drop-zone`. -/
  dropZoneClasses : List String
  /-- Property `textContent` of `.drop-zone__prompt`. -/
  promptText : String
  /-- Property `classList` of `#process-section`. -/
  processSectionClasses : List String
  /-- Property `classList` of `#download-section`. -/
  downloadSectionClasses : List String
  /-- Property `classList` of `#loader`. -/
  loaderClasses : List String
  /-- Property `disabled` of `#process-btn`. -/
  processBtnDisabled : Bool
  /-- Property `textContent` of `#status-msg`. -/
  statusMsg : String
  /-- Attribute `href` of `#download-link`. -/
  downloadHref : String
  /-- Messages passed to `alert`, oldest first. -/
  alerts : List String
  /-- Calls of `fetch`, oldest first. -/
  requests : List UploadRequest
deriving DecidableEq, Repr

/-! ## DOM and string primitives used by the script -/

/-- Method `classList.add(cls)`: the token is appended unless present. -/
def classListAdd (cls : String) (l : List String) : List String :=
  if cls ∈ l then l else l ++ [cls]

/-- Method `classList.remove(cls)`: the token is dropped. -/
def classListRemove (cls : String) (l : List String) : List String :=
  l.filter (fun c => c != cls)

/-- Method `classList.toggle(cls, force)`: add when `force`, else remove. -/
def classListToggle (cls : String) (force : Bool) (l : List String) : List String :=
  if force then classListAdd cls l else classListRemove cls l

/-- An element is shown when its class list lacks `hidden`. -/
def visible (l : List String) : Prop := "hidden" ∉ l

instance (l : List String) : Decidable (visible l) := by
  unfold visible; infer_instance

/-- Method `String.prototype.split(sep)` for a one-character separator:
the segments between the occurrences of `sep`, never an empty array. -/
def jsSplit (sep : Char) : List Char → List (List Char)
  | [] => [[]]
  | c :: cs =>
    if c = sep then [] :: jsSplit sep cs
    else
      match jsSplit sep cs with
      | [] => [[c]]
      | seg :: segs => (c :: seg) :: segs

/-- Method `Array.prototype.pop()`: the last element, `none` (that is
`undefined`) on an empty array. -/
def pop (segs : List (List Char)) : Option (List Char) := segs.getLast?

/-- Method `String.prototype.toLowerCase()`, on the ASCII letters. The
words of the allow-list are made of ASCII letters none of which is the
lower case of a character outside ASCII, so membership in the allow-list
is the same as under the full Unicode mapping. -/
def toLowerCase (cs : List Char) : List Char := cs.map Char.toLower

/-- Property `value` of `#file-input`: empty when no file is held,
otherwise the fake path of the first file. -/
def fileInputValue (s : Page) : String :=
  match s.fileInputFiles with
  | [] => ""
  | f :: _ => "C:\\fakepath\\" ++ f.name

/-! ## The script -/

/-- Constant `allowedExtensions` of `handleFileSelect`. -/
def allowedExtensions : List String := [".pdf", ".jpg", ".jpeg", ".png"]

/-- Text of the rejection alert. -/
def rejectionNotice : String :=
  "Por favor, selecciona un archivo válido (.pdf, .jpg, .png)"

/-- Initial text of the prompt, restored by the reset listener. -/
def invitation : String := "Arrastra tu archivo aquí o haz clic para subir"

/-- Status text of the `catch` branch. -/
def connectivityError : String := "Error al conectar con el servidor"

/-- Constant `extension` of `handleFileSelect`:
`'.' + file.name.split('.').pop().toLowerCase()`; `none` stands for the
`TypeError` of calling `toLowerCase` on `undefined`. -/
def extension (file : File) : Option String :=
  (pop (jsSplit '.' file.name.data)).map
    (fun t => "." ++ String.mk (toLowerCase t))

/-- Function `handleFileSelect(file)`; `none` stands for a thrown
exception. -/
def handleFileSelect (s : Page) (file : File) : Option Page :=
  match extension file with
  | none => none
  | some ext =>
    if ¬ (ext ∈ allowedExtensions) then
      some { s with alerts := s.alerts ++ [rejectionNotice] }
    else
      some { s with
        selectedFile := some file
        promptText := "Seleccionado: " ++ file.name
        processSectionClasses := classListRemove "hidden" s.processSectionClasses }

/-- Listener of `change` on `#file-input`: the browser has already stored
the chosen files in `this.files`. -/
def fileInputChange (s : Page) : Option Page :=
  match s.fileInputFiles with
  | [] => some s
  | file :: _ => handleFileSelect s file

/-- Listener of `click` on the drop zone: it opens the file dialog
(`file-input.click()`); the page changes only once files are picked. -/
def dropZoneClick (s : Page) : Page := s

/-- Listener of `dragover` on the drop zone. The call `e.preventDefault()`
of this listener and of the `drop` listener acts on the event, not on the
page, and has no counterpart here. -/
def dropZoneDragover (s : Page) : Page :=
  { s with dropZoneClasses := classListAdd "drop-zone--over" s.dropZoneClasses }

/-- Listener shared by `dragleave` and `dragend` on the drop zone. -/
def dropZoneDragleave (s : Page) : Page :=
  { s with dropZoneClasses := classListRemove "drop-zone--over" s.dropZoneClasses }

/-- Listener of `drop` on the drop zone; `files` is `e.dataTransfer.files`. -/
def dropZoneDrop (s : Page) (files : List File) : Option Page :=
  let s1 := { s with dropZoneClasses := classListRemove "drop-zone--over" s.dropZoneClasses }
  match files with
  | [] => some s1
  | file :: _ => handleFileSelect { s1 with fileInputFiles := files } file

/-- Function `toggleLoading(show)`; the argument is spelled `shown`,
`show` being reserved. -/
def toggleLoading (s : Page) (shown : Bool) : Page :=
  { s with
    loaderClasses := classListToggle "hidden" (!shown) s.loaderClasses
    processBtnDisabled := shown }

/-- Listener of `click` on `#process-btn`, up to the point where the
request has been handed to `fetch`. -/
def processBtnClick (s : Page) : Page :=
  match s.selectedFile with
  | none => s
  | some file =>
    let s1 := toggleLoading s true
    { s1 with requests := s1.requests ++ [⟨"/upload", "POST", "file", file⟩] }

/-- Conversion of a possibly absent string property to the string stored
in an attribute (`undefined` becomes the text `undefined`). -/
def attrString : Option String → String
  | none => "undefined"
  | some u => u

/-- Listener of `click` on `#process-btn`, from the settling of the
request on: the body of `try` after the two `await`, the `catch` branch,
and `finally`. -/
def processBtnSettle (s : Page) (o : FetchOutcome) : Page :=
  let s1 :=
    match o with
    | FetchOutcome.response result =>
      if result.success then
        { s with
          statusMsg := result.message
          downloadHref := attrString result.download_url
          processSectionClasses := classListAdd "hidden" s.processSectionClasses
          downloadSectionClasses := classListRemove "hidden" s.downloadSectionClasses }
      else
        { s with statusMsg := "Error: " ++ result.message }
    | _ => { s with statusMsg := connectivityError }
  toggleLoading s1 false

/-- Listener of `click` on `#reset-btn`; clearing `value` of the file
input empties its file list. -/
def resetBtnClick (s : Page) : Page :=
  { s with
    selectedFile := none
    fileInputFiles := []
    promptText := invitation
    processSectionClasses := classListAdd "hidden" s.processSectionClasses
    downloadSectionClasses := classListAdd "hidden" s.downloadSectionClasses
    statusMsg := "" }

/-! ## Gestures and runs -/

/-- The user picks `files` in the file dialog: the browser stores them in
`#file-input` and fires `change`. -/
def pickFiles (s : Page) (files : List File) : Option Page :=
  fileInputChange { s with fileInputFiles := files }

/-- One complete processing attempt: the click and, when a request was
issued, its settling with outcome `o`. -/
def processAttempt (s : Page) (o : FetchOutcome) : Page :=
  match s.selectedFile with
  | none => processBtnClick s
  | some _ => processBtnSettle (processBtnClick s) o

/-- Events delivered to the page. -/
inductive Event where
  | pick : List File → Event
  | drop : List File → Event
  | dragover : Event
  | dragleave : Event
  | process : FetchOutcome → Event
  | reset : Event
deriving DecidableEq, Repr

/-- Reaction of the page to one event. -/
def step (s : Page) : Event → Option Page
  | Event.pick files => pickFiles s files
  | Event.drop files => dropZoneDrop s files
  | Event.dragover => some (dropZoneDragover s)
  | Event.dragleave => some (dropZoneDragleave s)
  | Event.process o => some (processAttempt s o)
  | Event.reset => some (resetBtnClick s)

/-- Reaction of the page to a sequence of events. -/
def run (s : Page) : List Event → Option Page
  | [] => some s
  | e :: es => (step s e).bind (fun s1 => run s1 es)

/-- Modelled from the spec: the page before any event (the markup the
script runs against is not among the sources): nothing selected, the
prompt showing the invitation, both panels and the loader hidden. -/
def initialPage : Page :=
  { selectedFile := none
    fileInputFiles := []
    dropZoneClasses := ["drop-zone"]
    promptText := invitation
    processSectionClasses := ["hidden"]
    downloadSectionClasses := ["hidden"]
    loaderClasses := ["hidden"]
    processBtnDisabled := false
    statusMsg := ""
    downloadHref := ""
    alerts := []
    requests := [] }

/-- Mode `Ready` of the spec, read off the page: a file is selected, the
process panel is shown and the download panel is not. -/
def isReady (s : Page) : Prop :=
  s.selectedFile ≠ none ∧ visible s.processSectionClasses ∧ ¬ visible s.downloadSectionClasses

instance (s : Page) : Decidable (isReady s) := by
  unfold isReady; infer_instance

/-- The part of the page that carries the selection and the mode: `t`
agrees with `s` on `selectedFile`, the prompt, the class lists of both
panels, the status text and the alerts shown. -/
def sameSelectionAndMode (s t : Page) : Prop :=
  t.selectedFile = s.selectedFile ∧ t.promptText = s.promptText ∧
  t.processSectionClasses = s.processSectionClasses ∧
  t.downloadSectionClasses = s.downloadSectionClasses ∧
  t.statusMsg = s.statusMsg ∧ t.alerts = s.alerts

/-- The request the click listener hands to `fetch` for `file`. -/
def uploadOf (file : File) : UploadRequest := ⟨"/upload", "POST", "file", file⟩

/-! ## Sample data -/

/-- Sample file `a.pdf`. -/
def aPdf : File := ⟨"a.pdf", 1⟩

/-- Sample file `b.exe`. -/
def bExe : File := ⟨"b.exe", 2⟩

/-- Sample file `b.pdf`. -/
def bPdf : File := ⟨"b.pdf", 3⟩

/-- Sample file whose name is `pdf`, without any `.`. -/
def bare : File := ⟨"pdf", 4⟩

/-- The initial page after `a.pdf` was picked. -/
def readyPage : Page :=
  { initialPage with
    selectedFile := some aPdf
    fileInputFiles := [aPdf]
    promptText := "Seleccionado: a.pdf"
    processSectionClasses := [] }

/-- Answer of the service in the end-to-end success scenario. -/
def listo : UploadResult := ⟨true, "Listo", some "/files/123"⟩

/-! ## The validation rule in the words of the spec -/

/-- The final dot-delimited token of a name: the characters after the
last `.`, the whole name when it has no `.`. -/
def specFinalToken (cs : List Char) : List Char :=
  (cs.reverse.takeWhile (fun c => c != '.')).reverse

/-- The extension the spec validates: the final token, lowercased. -/
def specExtension (name : String) : String :=
  String.mk (toLowerCase (specFinalToken name.data))

/-- The allow-set of the spec. -/
def specAllowSet : List String := ["pdf", "jpg", "jpeg", "png"]

/-- Validity of a file name by the rule of the spec: the name has a `.`
and the part after the last one, lowercased, is in the allow-set; a name
without `.` is invalid. -/
def specValid (name : String) : Prop :=
  '.' ∈ name.data ∧ specExtension name ∈ specAllowSet

instance (name : String) : Decidable (specValid name) := by
  unfold specValid; infer_instance

/-! ## Lemmas on class lists -/

theorem mem_classListAdd (cls : String) (l : List String) :
    cls ∈ classListAdd cls l := by
  unfold classListAdd
  split_ifs with h
  · exact h
  · simp

theorem not_mem_classListRemove (cls : String) (l : List String) :
    cls ∉ classListRemove cls l := by
  simp [classListRemove]

theorem classListAdd_of_mem (cls : String) (l : List String)
    (h : cls ∈ l) : classListAdd cls l = l := by
  simp [classListAdd, h]

theorem classListAdd_idem (cls : String) (l : List String) :
    classListAdd cls (classListAdd cls l) = classListAdd cls l :=
  classListAdd_of_mem cls _ (mem_classListAdd cls l)

theorem classListRemove_of_not_mem (cls : String) (l : List String)
    (h : cls ∉ l) : classListRemove cls l = l := by
  unfold classListRemove
  rw [List.filter_eq_self]
  intro a ha
  have : a ≠ cls := fun e => h (e ▸ ha)
  simpa using this

theorem classListRemove_classListAdd (cls : String) (l : List String)
    (h : cls ∉ l) : classListRemove cls (classListAdd cls l) = l := by
  have hl := classListRemove_of_not_mem cls l h
  unfold classListRemove at hl ⊢
  simp [classListAdd, h, List.filter_append, hl]

/-! ## Lemmas on `split` and `pop` -/

theorem jsSplit_ne_nil (sep : Char) (cs : List Char) : jsSplit sep cs ≠ [] := by
  cases cs with
  | nil => simp [jsSplit]
  | cons c cs =>
    unfold jsSplit
    split_ifs
    · simp
    · split <;> simp

theorem jsSplit_of_not_mem (sep : Char) (cs : List Char) (h : sep ∉ cs) :
    jsSplit sep cs = [cs] := by
  induction cs with
  | nil => rfl
  | cons c cs ih =>
    have hc : c ≠ sep := fun e => h (by simp [e])
    have hcs : sep ∉ cs := fun e => h (by simp [e])
    simp [jsSplit, hc, ih hcs]

theorem jsSplit_append (sep : Char) (a b : List Char) :
    jsSplit sep (a ++ sep :: b) = jsSplit sep a ++ jsSplit sep b := by
  induction a with
  | nil => simp [jsSplit]
  | cons c a ih =>
    by_cases hc : c = sep
    · simp [jsSplit, hc, ih]
    · have hne := jsSplit_ne_nil sep a
      cases hsp : jsSplit sep a with
      | nil => exact absurd hsp hne
      | cons seg segs => simp [jsSplit, hc, ih, hsp]

theorem exists_last_sep (sep : Char) (cs : List Char) (h : sep ∈ cs) :
    ∃ pre t, cs = pre ++ sep :: t ∧ sep ∉ t := by
  induction cs with
  | nil => simp at h
  | cons c cs ih =>
    by_cases hin : sep ∈ cs
    · obtain ⟨pre, t, e, ht⟩ := ih hin
      exact ⟨c :: pre, t, by simp [e], ht⟩
    · have hc : sep = c := by
        rcases List.mem_cons.mp h with e | e
        · exact e
        · exact absurd e hin
      exact ⟨[], cs, by simp [hc], hin⟩

theorem pop_jsSplit_append (sep : Char) (pre t : List Char) (h : sep ∉ t) :
    pop (jsSplit sep (pre ++ sep :: t)) = some t := by
  rw [jsSplit_append, jsSplit_of_not_mem sep t h]
  simp [pop]

theorem specFinalToken_of_not_mem (t : List Char) (h : '.' ∉ t) :
    specFinalToken t = t := by
  unfold specFinalToken
  have : t.reverse.takeWhile (fun c => c != '.') = t.reverse := by
    rw [List.takeWhile_eq_self_iff]
    intro a ha
    have : a ≠ '.' := fun e => h (by simpa [e] using ha)
    simpa using this
  rw [this, List.reverse_reverse]

theorem specFinalToken_append (pre t : List Char) (h : '.' ∉ t) :
    specFinalToken (pre ++ '.' :: t) = t := by
  have key : ∀ (a b : List Char), (∀ x ∈ a, x ≠ '.') →
      (a ++ '.' :: b).takeWhile (fun c => c != '.') = a := by
    intro a b ha
    induction a with
    | nil => simp
    | cons x a ih =>
      have hx : x ≠ '.' := ha x (by simp)
      have ih1 := ih (fun y hy => ha y (by simp [hy]))
      rw [List.cons_append, List.takeWhile_cons]
      simp [hx, ih1]
  unfold specFinalToken
  have hr : (pre ++ '.' :: t).reverse = t.reverse ++ '.' :: pre.reverse := by simp
  rw [hr, key t.reverse pre.reverse (fun x hx e => h (by simpa [e] using hx))]
  simp

/-- The token popped by the script is the final dot-delimited token. -/
theorem pop_jsSplit (cs : List Char) :
    pop (jsSplit '.' cs) = some (specFinalToken cs) := by
  by_cases h : '.' ∈ cs
  · obtain ⟨pre, t, e, ht⟩ := exists_last_sep '.' cs h
    rw [e, pop_jsSplit_append '.' pre t ht, specFinalToken_append pre t ht]
  · rw [jsSplit_of_not_mem '.' cs h, specFinalToken_of_not_mem cs h]
    simp [pop]

theorem extension_eq (file : File) :
    extension file = some ("." ++ specExtension file.name) := by
  simp [extension, pop_jsSplit, specExtension]

theorem mem_allowedExtensions_iff (e : String) :
    "." ++ e ∈ allowedExtensions ↔ e ∈ specAllowSet := by
  have h : ∀ x : String, "." ++ e = "." ++ x ↔ e = x := by
    intro x
    constructor
    · intro hx
      have := congrArg String.data hx
      simp only [String.data_append, List.append_cancel_left_eq] at this
      exact String.ext this
    · intro hx; rw [hx]
  have e1 : (".pdf" : String) = "." ++ "pdf" := by decide
  have e2 : (".jpg" : String) = "." ++ "jpg" := by decide
  have e3 : (".jpeg" : String) = "." ++ "jpeg" := by decide
  have e4 : (".png" : String) = "." ++ "png" := by decide
  simp only [allowedExtensions, specAllowSet, List.mem_cons, List.mem_singleton,
    List.not_mem_nil, or_false, e1, e2, e3, e4, h]

/-- The two branches of `handleFileSelect`, by the rule of the spec. -/
theorem handleFileSelect_eq (s : Page) (file : File) :
    handleFileSelect s file =
      if specExtension file.name ∈ specAllowSet then
        some { s with
          selectedFile := some file
          promptText := "Seleccionado: " ++ file.name
          processSectionClasses := classListRemove "hidden" s.processSectionClasses }
      else some { s with alerts := s.alerts ++ [rejectionNotice] } := by
  unfold handleFileSelect
  rw [extension_eq]
  simp only [mem_allowedExtensions_iff]
  split_ifs <;> simp_all

theorem handleFileSelect_isSome (s : Page) (file : File) :
    (handleFileSelect s file).isSome = true := by
  rw [handleFileSelect_eq]
  split_ifs <;> rfl

/-! ## Validation -/

/-- C1: for a file name containing a `.`, the final token is the part of
the name after its last `.`, `handleFileSelect` returns, and it accepts
the file (the file becomes `selectedFile` and no alert is shown) exactly
when that part, lowercased, is one of `pdf`, `jpg`, `jpeg`, `png`;
otherwise the alert is shown and `selectedFile` stays what it was, so a
file that was not selected before is selected afterwards exactly when its
extension is allowed. -/
theorem handleFileSelect_accepts_iff (s : Page) (file : File)
    (h : '.' ∈ file.name.data) :
    ∃ pre s1, file.name.data = pre ++ '.' :: specFinalToken file.name.data ∧
      '.' ∉ specFinalToken file.name.data ∧
      handleFileSelect s file = some s1 ∧
      ((s1.selectedFile = some file ∧ s1.alerts = s.alerts) ↔
        specExtension file.name ∈ specAllowSet) ∧
      (specExtension file.name ∉ specAllowSet →
        s1.selectedFile = s.selectedFile ∧
        s1.alerts = s.alerts ++ [rejectionNotice]) ∧
      (s.selectedFile ≠ some file →
        (s1.selectedFile = some file ↔ specExtension file.name ∈ specAllowSet)) := by
  obtain ⟨pre, t, e, ht⟩ := exists_last_sep '.' file.name.data h
  have ft : specFinalToken file.name.data = t := by
    rw [e, specFinalToken_append pre t ht]
  by_cases hv : specExtension file.name ∈ specAllowSet
  · have e1 := handleFileSelect_eq s file
    rw [if_pos hv] at e1
    refine ⟨pre, _, ?_, ?_, e1, ?_, ?_, ?_⟩
    · rw [ft]; exact e
    · rw [ft]; exact ht
    · simp [hv]
    · intro hn; exact absurd hv hn
    · intro _; simp [hv]
  · have e1 := handleFileSelect_eq s file
    rw [if_neg hv] at e1
    refine ⟨pre, _, ?_, ?_, e1, ?_, ?_, ?_⟩
    · rw [ft]; exact e
    · rw [ft]; exact ht
    · simp [hv]
    · intro _; exact ⟨rfl, rfl⟩
    · intro hs; simp [hv, hs]

theorem handleFileSelect_accepts_iff_witness :
    ('.' ∈ (File.mk "archive.tar.pdf" 0).name.data ∧
      specExtension "archive.tar.pdf" ∈ specAllowSet ∧
      ∃ s1, handleFileSelect initialPage (File.mk "archive.tar.pdf" 0) = some s1 ∧
        s1.selectedFile = some (File.mk "archive.tar.pdf" 0) ∧ s1.alerts = []) ∧
    ('.' ∈ (File.mk "data.pdf.exe" 0).name.data ∧
      specExtension "data.pdf.exe" ∉ specAllowSet ∧
      ∃ s1, handleFileSelect readyPage (File.mk "data.pdf.exe" 0) = some s1 ∧
        s1.selectedFile = some aPdf ∧ s1.selectedFile ≠ some (File.mk "data.pdf.exe" 0) ∧
        s1.alerts = [rejectionNotice]) := by
  constructor
  · obtain ⟨_, s1, _, _, e, hiff, _, _⟩ :=
      handleFileSelect_accepts_iff initialPage (File.mk "archive.tar.pdf" 0) (by decide)
    have hacc := hiff.2 (by decide)
    exact ⟨by decide, by decide, s1, e, hacc.1, hacc.2⟩
  · obtain ⟨_, s1, _, _, e, _, hrej, hsel⟩ :=
      handleFileSelect_accepts_iff readyPage (File.mk "data.pdf.exe" 0) (by decide)
    have hr := hrej (by decide)
    have hn : s1.selectedFile ≠ some (File.mk "data.pdf.exe" 0) :=
      fun hc => absurd ((hsel (by decide)).1 hc) (by decide)
    exact ⟨by decide, by decide, s1, e, hr.1, hn, hr.2⟩

/-- The four names of the spec: `Photo.JPG`, `photo.jpg` and
`archive.tar.pdf` are selected without alert, `data.pdf.exe` is answered
by the alert and not selected. -/
theorem handleFileSelect_examples :
    handleFileSelect initialPage ⟨"Photo.JPG", 0⟩ =
      some { initialPage with
        selectedFile := some ⟨"Photo.JPG", 0⟩
        promptText := "Seleccionado: Photo.JPG"
        processSectionClasses := [] } ∧
    handleFileSelect initialPage ⟨"photo.jpg", 0⟩ =
      some { initialPage with
        selectedFile := some ⟨"photo.jpg", 0⟩
        promptText := "Seleccionado: photo.jpg"
        processSectionClasses := [] } ∧
    handleFileSelect initialPage ⟨"archive.tar.pdf", 0⟩ =
      some { initialPage with
        selectedFile := some ⟨"archive.tar.pdf", 0⟩
        promptText := "Seleccionado: archive.tar.pdf"
        processSectionClasses := [] } ∧
    handleFileSelect initialPage ⟨"data.pdf.exe", 0⟩ =
      some { initialPage with alerts := [rejectionNotice] } := by
  decide

/-- C2: the file named `pdf` has no `.` in its name, yet `handleFileSelect`
selects it, reveals the process panel and shows no alert; the file named
`noext` is answered by the alert. -/
theorem handleFileSelect_bare_name_selected :
    '.' ∉ bare.name.data ∧
    handleFileSelect initialPage bare =
      some { initialPage with
        selectedFile := some bare
        promptText := "Seleccionado: pdf"
        processSectionClasses := [] } ∧
    handleFileSelect initialPage ⟨"noext", 0⟩ =
      some { initialPage with alerts := [rejectionNotice] } := by
  decide

/-- Frame of the rejection branch: when the final token of the name of the
first file, lowercased, is not in the allow-set, picking or dropping the
files shows the rejection alert and leaves `selectedFile`, the prompt, the
class lists of both panels and the status text as they were. -/
theorem rejected_file_frame (s : Page) (file : File) (rest : List File)
    (h : specExtension file.name ∉ specAllowSet) :
    (∃ s1, pickFiles s (file :: rest) = some s1 ∧
      s1.alerts = s.alerts ++ [rejectionNotice] ∧
      s1.selectedFile = s.selectedFile ∧ s1.promptText = s.promptText ∧
      s1.processSectionClasses = s.processSectionClasses ∧
      s1.downloadSectionClasses = s.downloadSectionClasses ∧
      s1.statusMsg = s.statusMsg) ∧
    (∃ s1, dropZoneDrop s (file :: rest) = some s1 ∧
      s1.alerts = s.alerts ++ [rejectionNotice] ∧
      s1.selectedFile = s.selectedFile ∧ s1.promptText = s.promptText ∧
      s1.processSectionClasses = s.processSectionClasses ∧
      s1.downloadSectionClasses = s.downloadSectionClasses ∧
      s1.statusMsg = s.statusMsg) := by
  constructor
  · have e1 := handleFileSelect_eq { s with fileInputFiles := file :: rest } file
    rw [if_neg h] at e1
    exact ⟨_, e1, rfl, rfl, rfl, rfl, rfl, rfl⟩
  · have e1 := handleFileSelect_eq
      { s with
        dropZoneClasses := classListRemove "drop-zone--over" s.dropZoneClasses
        fileInputFiles := file :: rest } file
    rw [if_neg h] at e1
    exact ⟨_, e1, rfl, rfl, rfl, rfl, rfl, rfl⟩

/-- C3: on the page where `a.pdf` is selected (reached from the initial
page by picking `a.pdf`, mode Ready), the file `b.exe` is answered by the
alert and the selection stays `a.pdf`; the file named `pdf`, invalid by
the rule of the spec since its name has no `.`, is instead selected in
place of `a.pdf` with the prompt rewritten and no alert, through the
picker and through a drop alike. -/
theorem invalid_bare_name_replaces_selection :
    pickFiles initialPage [aPdf] = some readyPage ∧ isReady readyPage ∧
    ¬ specValid bExe.name ∧
    pickFiles readyPage [bExe] =
      some { readyPage with
        fileInputFiles := [bExe]
        alerts := [rejectionNotice] } ∧
    ¬ specValid bare.name ∧
    pickFiles readyPage [bare] =
      some { readyPage with
        selectedFile := some bare
        fileInputFiles := [bare]
        promptText := "Seleccionado: pdf" } ∧
    dropZoneDrop readyPage [bare] =
      some { readyPage with
        selectedFile := some bare
        fileInputFiles := [bare]
        promptText := "Seleccionado: pdf" } := by
  decide

/-- C4: when the final token of the name of the first file, lowercased, is
in the allow-set, picking or dropping the files makes that file
`selectedFile`, sets the prompt to `Seleccionado: ` followed by its name,
shows the process panel, shows no alert and issues no request. -/
theorem valid_file_selected (s : Page) (file : File) (rest : List File)
    (h : specExtension file.name ∈ specAllowSet) :
    (∃ s1, pickFiles s (file :: rest) = some s1 ∧
      s1.selectedFile = some file ∧
      s1.promptText = "Seleccionado: " ++ file.name ∧
      visible s1.processSectionClasses ∧
      s1.alerts = s.alerts ∧ s1.requests = s.requests) ∧
    (∃ s1, dropZoneDrop s (file :: rest) = some s1 ∧
      s1.selectedFile = some file ∧
      s1.promptText = "Seleccionado: " ++ file.name ∧
      visible s1.processSectionClasses ∧
      s1.alerts = s.alerts ∧ s1.requests = s.requests) := by
  constructor
  · have e1 := handleFileSelect_eq { s with fileInputFiles := file :: rest } file
    rw [if_pos h] at e1
    exact ⟨_, e1, rfl, rfl, not_mem_classListRemove "hidden" _, rfl, rfl⟩
  · have e1 := handleFileSelect_eq
      { s with
        dropZoneClasses := classListRemove "drop-zone--over" s.dropZoneClasses
        fileInputFiles := file :: rest } file
    rw [if_pos h] at e1
    exact ⟨_, e1, rfl, rfl, not_mem_classListRemove "hidden" _, rfl, rfl⟩

theorem valid_file_selected_witness :
    specExtension bPdf.name ∈ specAllowSet ∧
    (∃ s1, pickFiles readyPage [bPdf] = some s1 ∧
      s1.selectedFile = some bPdf ∧
      s1.promptText = "Seleccionado: " ++ bPdf.name ∧
      visible s1.processSectionClasses ∧
      s1.alerts = readyPage.alerts ∧ s1.requests = readyPage.requests) ∧
    (∃ s1, dropZoneDrop readyPage [bPdf] = some s1 ∧
      s1.selectedFile = some bPdf ∧
      s1.promptText = "Seleccionado: " ++ bPdf.name ∧
      visible s1.processSectionClasses ∧
      s1.alerts = readyPage.alerts ∧ s1.requests = readyPage.requests) :=
  ⟨by decide, valid_file_selected readyPage bPdf [] (by decide)⟩

/-! ## Modes -/

/-- C5: from the initial page, picking `a.pdf`, processing it with a
successful answer and then picking `b.pdf` ends with the process panel and
the download panel both shown. -/
theorem panels_both_visible_after_reselect :
    ∃ s1, run initialPage
        [Event.pick [aPdf], Event.process (FetchOutcome.response listo),
          Event.pick [bPdf]] = some s1 ∧
      s1.selectedFile = some bPdf ∧
      visible s1.processSectionClasses ∧ visible s1.downloadSectionClasses := by
  refine ⟨_, rfl, ?_, ?_, ?_⟩ <;> decide

/-! ## Processing -/

/-- C6: with a file selected, the click shows the loader and disables the
button; when the request then settles with `success = true`, message `m`
and download URL `u`, the status text is `m`, the link target is `u`, the
process panel is hidden, the download panel is shown, the loader is hidden
and the button is enabled again. -/
theorem process_success (s : Page) (file : File) (m u : String)
    (h : s.selectedFile = some file) :
    visible (processBtnClick s).loaderClasses ∧
    (processBtnClick s).processBtnDisabled = true ∧
    processAttempt s (FetchOutcome.response ⟨true, m, some u⟩) =
      processBtnSettle (processBtnClick s) (FetchOutcome.response ⟨true, m, some u⟩) ∧
    (processAttempt s (FetchOutcome.response ⟨true, m, some u⟩)).statusMsg = m ∧
    (processAttempt s (FetchOutcome.response ⟨true, m, some u⟩)).downloadHref = u ∧
    ¬ visible (processAttempt s (FetchOutcome.response ⟨true, m, some u⟩)).processSectionClasses ∧
    visible (processAttempt s (FetchOutcome.response ⟨true, m, some u⟩)).downloadSectionClasses ∧
    ¬ visible (processAttempt s (FetchOutcome.response ⟨true, m, some u⟩)).loaderClasses ∧
    (processAttempt s (FetchOutcome.response ⟨true, m, some u⟩)).processBtnDisabled = false := by
  have hadd := mem_classListAdd "hidden"
  have hrem := not_mem_classListRemove "hidden"
  simp [processAttempt, processBtnClick, processBtnSettle, toggleLoading,
    classListToggle, attrString, visible, h, hadd, hrem]

theorem process_success_witness :
    readyPage.selectedFile = some aPdf ∧
    visible (processBtnClick readyPage).loaderClasses ∧
    (processBtnClick readyPage).processBtnDisabled = true ∧
    processAttempt readyPage (FetchOutcome.response ⟨true, "Listo", some "/files/123"⟩) =
      processBtnSettle (processBtnClick readyPage)
        (FetchOutcome.response ⟨true, "Listo", some "/files/123"⟩) ∧
    (processAttempt readyPage
      (FetchOutcome.response ⟨true, "Listo", some "/files/123"⟩)).statusMsg = "Listo" ∧
    (processAttempt readyPage
      (FetchOutcome.response ⟨true, "Listo", some "/files/123"⟩)).downloadHref = "/files/123" ∧
    ¬ visible (processAttempt readyPage
      (FetchOutcome.response ⟨true, "Listo", some "/files/123"⟩)).processSectionClasses ∧
    visible (processAttempt readyPage
      (FetchOutcome.response ⟨true, "Listo", some "/files/123"⟩)).downloadSectionClasses ∧
    ¬ visible (processAttempt readyPage
      (FetchOutcome.response ⟨true, "Listo", some "/files/123"⟩)).loaderClasses ∧
    (processAttempt readyPage
      (FetchOutcome.response ⟨true, "Listo", some "/files/123"⟩)).processBtnDisabled = false :=
  ⟨rfl, process_success readyPage aPdf "Listo" "/files/123" rfl⟩

/-- C7: from a Ready page, an attempt that does not succeed ends Ready:
answered with `success = false` and message `m` it sets the status text
to `Error: ` followed by `m`; when the request fails or the answer cannot
be parsed it sets the status text to the connectivity text; either way
`selectedFile` and the class lists of both panels are as before, the
loader is hidden and the button is enabled. -/
theorem process_failure_back_to_ready (s : Page) (o : FetchOutcome)
    (h : isReady s) (ho : ∀ r, o = FetchOutcome.response r → r.success = false) :
    (∀ r, o = FetchOutcome.response r →
      (processAttempt s o).statusMsg = "Error: " ++ r.message) ∧
    (o = FetchOutcome.networkError ∨ o = FetchOutcome.parseError →
      (processAttempt s o).statusMsg = "Error al conectar con el servidor") ∧
    (processAttempt s o).selectedFile = s.selectedFile ∧
    (processAttempt s o).processSectionClasses = s.processSectionClasses ∧
    (processAttempt s o).downloadSectionClasses = s.downloadSectionClasses ∧
    isReady (processAttempt s o) ∧
    ¬ visible (processAttempt s o).loaderClasses ∧
    (processAttempt s o).processBtnDisabled = false := by
  have hadd := mem_classListAdd "hidden"
  obtain ⟨hs, hp, hd⟩ := h
  cases hsel : s.selectedFile with
  | none => exact absurd hsel hs
  | some file =>
    cases o with
    | response r =>
      have hr : r.success = false := ho r rfl
      simp [processAttempt, processBtnClick, processBtnSettle, toggleLoading,
        classListToggle, visible, isReady, hsel, hadd, hr]
      exact ⟨hp, by simpa [visible] using hd⟩
    | networkError =>
      simp [processAttempt, processBtnClick, processBtnSettle, toggleLoading,
        classListToggle, connectivityError, visible, isReady, hsel, hadd]
      exact ⟨hp, by simpa [visible] using hd⟩
    | parseError =>
      simp [processAttempt, processBtnClick, processBtnSettle, toggleLoading,
        classListToggle, connectivityError, visible, isReady, hsel, hadd]
      exact ⟨hp, by simpa [visible] using hd⟩

theorem process_failure_back_to_ready_witness :
    isReady readyPage ∧
    (processAttempt readyPage (FetchOutcome.response ⟨false, "Archivo corrupto", none⟩)).statusMsg =
      "Error: Archivo corrupto" ∧
    (processAttempt readyPage
      (FetchOutcome.response ⟨false, "Archivo corrupto", none⟩)).selectedFile = some aPdf ∧
    isReady (processAttempt readyPage
      (FetchOutcome.response ⟨false, "Archivo corrupto", none⟩)) ∧
    ¬ visible (processAttempt readyPage
      (FetchOutcome.response ⟨false, "Archivo corrupto", none⟩)).loaderClasses ∧
    (processAttempt readyPage
      (FetchOutcome.response ⟨false, "Archivo corrupto", none⟩)).processBtnDisabled = false := by
  have hw := process_failure_back_to_ready readyPage
    (FetchOutcome.response ⟨false, "Archivo corrupto", none⟩) (by decide)
    (fun r e => by cases e; rfl)
  obtain ⟨h1, _, h2, _, _, h5, h6, h7⟩ := hw
  exact ⟨by decide, h1 _ rfl, h2, h5, h6, h7⟩

/-- C8: after reset, `selectedFile` is null, the value of the file input
is empty, the prompt is the invitation, both panels are hidden and the
status text is empty; a second reset changes nothing. -/
theorem reset_restores_idle (s : Page) :
    (resetBtnClick s).selectedFile = none ∧
    fileInputValue (resetBtnClick s) = "" ∧
    (resetBtnClick s).promptText = "Arrastra tu archivo aquí o haz clic para subir" ∧
    ¬ visible (resetBtnClick s).processSectionClasses ∧
    ¬ visible (resetBtnClick s).downloadSectionClasses ∧
    (resetBtnClick s).statusMsg = "" ∧
    resetBtnClick (resetBtnClick s) = resetBtnClick s := by
  have hadd := mem_classListAdd "hidden"
  simp [resetBtnClick, fileInputValue, invitation, visible, hadd, classListAdd_idem]

/-- C9: with `selectedFile` null the click changes nothing on the page (no
request, loader, button, status text, link target and panels untouched);
with a file selected the click issues one request, to `/upload` by `POST`
with that file in the field `file`, and the settling adds none. -/
theorem process_requires_selection (s : Page) :
    (s.selectedFile = none →
      processBtnClick s = s ∧ ∀ o, processAttempt s o = s) ∧
    (∀ file, s.selectedFile = some file →
      (processBtnClick s).requests = s.requests ++ [uploadOf file] ∧
      ∀ o, (processAttempt s o).requests = s.requests ++ [uploadOf file]) := by
  constructor
  · intro h
    simp [processAttempt, processBtnClick, h]
  · intro file h
    refine ⟨by simp [processBtnClick, toggleLoading, uploadOf, h], ?_⟩
    intro o
    cases o with
    | response r =>
      by_cases hr : r.success = true <;>
        simp [processAttempt, processBtnClick, processBtnSettle, toggleLoading, uploadOf, h, hr]
    | networkError =>
      simp [processAttempt, processBtnClick, processBtnSettle, toggleLoading, uploadOf, h]
    | parseError =>
      simp [processAttempt, processBtnClick, processBtnSettle, toggleLoading, uploadOf, h]

theorem process_requires_selection_witness :
    (initialPage.selectedFile = none ∧ processBtnClick initialPage = initialPage ∧
      ∀ o, processAttempt initialPage o = initialPage) ∧
    (readyPage.selectedFile = some aPdf ∧
      (processBtnClick readyPage).requests = readyPage.requests ++ [uploadOf aPdf] ∧
      ∀ o, (processAttempt readyPage o).requests = readyPage.requests ++ [uploadOf aPdf]) :=
  ⟨⟨rfl, (process_requires_selection initialPage).1 rfl⟩,
    ⟨rfl, (process_requires_selection readyPage).2 aPdf rfl⟩⟩

/-! ## Drag gestures -/

/-- C10: `dragover`, `dragleave`/`dragend` and a drop without files keep
`selectedFile`, the prompt, both panels, the status text and the alerts;
the empty drop does just what `dragleave` does; `dragover` twice is
`dragover` once; `dragleave` on a page without the indicator changes
nothing, and after `dragover` it gives that page back; after `dragover`
then `dragleave` the indicator is absent. -/
theorem drag_without_file (s : Page) :
    sameSelectionAndMode s (dropZoneDragover s) ∧
    sameSelectionAndMode s (dropZoneDragleave s) ∧
    dropZoneDrop s [] = some (dropZoneDragleave s) ∧
    dropZoneDragover (dropZoneDragover s) = dropZoneDragover s ∧
    "drop-zone--over" ∉ (dropZoneDragleave (dropZoneDragover s)).dropZoneClasses ∧
    ("drop-zone--over" ∉ s.dropZoneClasses →
      dropZoneDragleave s = s ∧ dropZoneDragleave (dropZoneDragover s) = s) := by
  refine ⟨?_, ?_, rfl, ?_, ?_, ?_⟩
  · simp [sameSelectionAndMode, dropZoneDragover]
  · simp [sameSelectionAndMode, dropZoneDragleave]
  · simp [dropZoneDragover, classListAdd_idem]
  · exact not_mem_classListRemove "drop-zone--over" _
  · intro h
    constructor
    · simp [dropZoneDragleave, classListRemove_of_not_mem _ _ h]
    · simp [dropZoneDragleave, dropZoneDragover, classListRemove_classListAdd _ _ h]

theorem drag_without_file_witness :
    "drop-zone--over" ∉ readyPage.dropZoneClasses ∧
    sameSelectionAndMode readyPage (dropZoneDragover readyPage) ∧
    sameSelectionAndMode readyPage (dropZoneDragleave readyPage) ∧
    dropZoneDrop readyPage [] = some (dropZoneDragleave readyPage) ∧
    dropZoneDragover (dropZoneDragover readyPage) = dropZoneDragover readyPage ∧
    "drop-zone--over" ∉ (dropZoneDragleave (dropZoneDragover readyPage)).dropZoneClasses ∧
    dropZoneDragleave readyPage = readyPage ∧
    dropZoneDragleave (dropZoneDragover readyPage) = readyPage := by
  obtain ⟨h1, h2, h3, h4, h5, h6⟩ := drag_without_file readyPage
  have hn : "drop-zone--over" ∉ readyPage.dropZoneClasses := by decide
  exact ⟨hn, h1, h2, h3, h4, h5, (h6 hn).1, (h6 hn).2⟩

end Limpiador
